import Mathlib

/-!
Verification of the Average-Hero rhythm game core.

Part 1 embeds the chart generator `generateChartFromMidi` from
`src/utils/midiUtils.ts`: MIDI tracks + difficulty → interactive chart +
background audio events.  Times, durations and velocities are modelled as
exact rationals (the source uses JS doubles); `Math.sin` — the only
transcendental the generator calls — is passed in as an explicit function
parameter `S`, so every claim is proved for an arbitrary sine oracle and
can be evaluated on concrete oracles.

Part 2 embeds the per-note body of the `GameScene` per-frame tick
(`useFrame` loop in `src/components/GameScene.tsx`): the hold/miss/auto-play/
collision state machine for a single note.  The geometry constants
(`PLAYER_Z`, `MISS_Z`, `NOTE_SPEED`, lane/layer anchor arrays, from the
repository's `constants.ts`) enter as an explicit parameter record, so all
engine theorems hold for every choice of those constants.
-/

namespace AvgHero

/-- `HandType` from `src/types.ts`: which hand must intercept a note. -/
inductive HandType where
  | left
  | right
deriving DecidableEq, Repr

/-- Instrument classes produced by `getInstrumentType` in `midiUtils.ts`. -/
inductive Instrument where
  | kick
  | snare
  | hihat
  | bass
  | lead
deriving DecidableEq, Repr

/-- The difficulty parameter `'Easy' | 'Medium' | 'Hard'` of `generateChartFromMidi`. -/
inductive Difficulty where
  | Easy
  | Medium
  | Hard
deriving DecidableEq, Repr

/-- `CutDirection` enum from `src/types.ts`. -/
inductive CutDirection where
  | UP
  | DOWN
  | LEFT
  | RIGHT
  | ANY
deriving DecidableEq, Repr

/-- `NoteAudioData` from `src/types.ts`. -/
structure NoteAudioData where
  instrument : Instrument
  midi : ℤ
  name : String
  duration : ℚ
  velocity : ℚ
deriving DecidableEq, Repr

/-- `NoteData` from `src/types.ts`.  The optional JS state fields
(`hit?`, `isHolding?`, `missed?` — `undefined` behaves as `false` in every
boolean test of the engine) are modelled as `Bool`; `hitTime?` as `Option ℚ`. -/
structure NoteData where
  id : String
  time : ℚ
  length : ℚ
  lineIndex : ℕ
  lineLayer : ℕ
  type : HandType
  cutDirection : CutDirection
  audio : NoteAudioData
  hit : Bool
  isHolding : Bool
  missed : Bool
  hitTime : Option ℚ
deriving DecidableEq, Repr

/-- `BackgroundAudioEvent` from `src/types.ts`. -/
structure BackgroundAudioEvent where
  time : ℚ
  instrument : Instrument
  name : String
  duration : ℚ
  velocity : ℚ
deriving DecidableEq, Repr

/-- One note of a `@tonejs/midi` track, as read by `generateChartFromMidi`:
`{ time, midi, name, velocity, duration }`. -/
structure MidiNote where
  time : ℚ
  midi : ℤ
  name : String
  velocity : ℚ
  duration : ℚ
deriving DecidableEq, Repr

/-- One `@tonejs/midi` track as read by the generator: the fields consulted
are `track.instrument.percussion`, `track.channel` and `track.notes`. -/
structure MidiTrack where
  percussion : Bool
  channel : ℕ
  notes : List MidiNote
deriving DecidableEq, Repr

/-- A flattened event of `allEvents` in `generateChartFromMidi`: a track note
with its `instrumentType` attached. -/
structure MidiEvent where
  time : ℚ
  midi : ℤ
  name : String
  velocity : ℚ
  duration : ℚ
  instrumentType : Instrument
deriving DecidableEq, Repr

/-- The `ProcessedSong` result record of `generateChartFromMidi`. -/
structure ProcessedSong where
  chart : List NoteData
  backgroundEvents : List BackgroundAudioEvent
deriving DecidableEq, Repr

/-- `getInstrumentType` from `generateChartFromMidi` (midiUtils.ts, lines 51-61). -/
def getInstrumentType (track : MidiTrack) (midiNote : ℤ) : Instrument :=
  if track.percussion = true ∨ track.channel = 9 then
    if midiNote = 36 ∨ midiNote = 35 then .kick
    else if midiNote = 38 ∨ midiNote = 40 then .snare
    else if 42 ≤ midiNote ∧ midiNote ≤ 46 then .hihat
    else .snare
  else if midiNote < 50 then .bass
  else .lead

/-- The `flatMap` step of `generateChartFromMidi` (lines 64-73, before sorting):
flatten all tracks' notes, attaching `instrumentType` per note. -/
def flattenTracks (tracks : List MidiTrack) : List MidiEvent :=
  tracks.flatMap fun track =>
    track.notes.map fun n =>
      { time := n.time
        midi := n.midi
        name := n.name
        velocity := n.velocity
        duration := n.duration
        instrumentType := getInstrumentType track n.midi }

/-- Stable insertion by `time`: places `a` after every element whose time is
`≤ a.time`.  Together with `sortByTime` this models
`Array.prototype.sort((a, b) => a.time - b.time)`, which ECMAScript
guarantees to be a stable ascending sort by `time`. -/
def insertByTime (a : MidiEvent) : List MidiEvent → List MidiEvent
  | [] => [a]
  | b :: l => if a.time < b.time then a :: b :: l else b :: insertByTime a l

/-- Stable ascending sort by `time` (see `insertByTime`), modelling the
`.sort((a, b) => a.time - b.time)` call of `generateChartFromMidi`. -/
def sortByTime (l : List MidiEvent) : List MidiEvent :=
  l.foldl (fun acc a => insertByTime a acc) []

/-- `minTimeGap` (midiUtils.ts line 48): minimum time in seconds between
notes for a single hand. -/
def minTimeGap (difficulty : Difficulty) : ℚ :=
  if difficulty = .Easy then 3/5 else if difficulty = .Medium then 7/20 else 3/20

/-- `lastNoteTimeGlobal` (midiUtils.ts line 78).  In the source this is
declared `const lastNoteTimeGlobal = -1;` and is never reassigned anywhere
in the function, so the chord de-duplication comparison always reads `-1`. -/
def lastNoteTimeGlobal : ℚ := -1

/-- The mutable loop state of `generateChartFromMidi`: the accumulated
`notes` and `backgroundEvents` arrays, the `idCount` counter, and the
`lastTimeForHand` record (one entry per hand, initialised to `-1`). -/
structure GenState where
  notes : List NoteData
  backgroundEvents : List BackgroundAudioEvent
  idCount : ℕ
  lastLeft : ℚ
  lastRight : ℚ
deriving DecidableEq, Repr

/-- `lastTimeForHand[type]` lookup. -/
def GenState.lastFor (st : GenState) : HandType → ℚ
  | .left => st.lastLeft
  | .right => st.lastRight

/-- `lastTimeForHand[type] = v` update. -/
def GenState.setLastFor (st : GenState) : HandType → ℚ → GenState
  | .left, v => { st with lastLeft := v }
  | .right, v => { st with lastRight := v }

/-- Piano-style hand assignment of `generateChartFromMidi` (lines 115-121):
split point MIDI 62, lower pitches to the left hand. -/
def handForMidi (midi : ℤ) : HandType :=
  if midi < 62 then .left else .right

/-- The `shouldBeInteractive` flag of one loop iteration of
`generateChartFromMidi` (lines 86-127): starts `true` and is downgraded by
the source's successive conditional reassignments, modelled by the chain
`b1`/`b2`/`b3`/final value.  `lastTimeForHand` is the current
`lastTimeForHand[type]` entry for the event's hand.
`0.05 = 1/20`. -/
def shouldBeInteractiveFlag (difficulty : Difficulty) (note : MidiEvent)
    (lastTimeForHand : ℚ) : Bool :=
  let instrument := note.instrumentType
  -- On Easy/Medium, remove busy hi-hats from gameplay, keep them in background
  let b1 : Bool := if instrument = .hihat ∧ difficulty ≠ .Hard then false else true
  -- Move Rhythm Section (Kick/Bass) entirely to Background Track
  let b2 : Bool := if instrument = .kick ∨ instrument = .bass then false else b1
  -- 1. Chord De-duplication for Gameplay
  let timeDiff : ℚ := |note.time - lastNoteTimeGlobal|
  let b3 : Bool := if timeDiff < 1/20 ∧ difficulty ≠ .Hard then false else b2
  -- 2. Time Gating
  if b3 = true ∧ note.time - lastTimeForHand < minTimeGap difficulty then false else b3

/-- Construction of the interactive note pushed by `generateChartFromMidi`
(lines 137-173): pitch-based layer, `sin`-hash-based lane, long-note length.
`S` stands for `Math.sin`; `123.45 = 2469/20`; `0.2 = 1/5`. -/
def noteForEvent (S : ℚ → ℚ) (idCount : ℕ) (note : MidiEvent) : NoteData :=
  let type := handForMidi note.midi
  -- Simple pitch mapping for height
  let lineLayer : ℕ := if note.midi < 55 then 0 else if note.midi > 70 then 2 else 1
  -- Lane logic: left hand (0, 1), right hand (2, 3)
  let hash := S (note.time * (2469/20))
  let lineIndex : ℕ :=
    if type = .left then (if hash > 0 then 1 else 0) else (if hash > 0 then 2 else 3)
  -- Long note logic: notes longer than 0.2s become hold notes
  let length : ℚ := if note.duration > 1/5 then note.duration else 0
  { id := "n-" ++ toString idCount
    time := note.time
    length := length
    lineIndex := lineIndex
    lineLayer := lineLayer
    type := type
    cutDirection := .ANY
    audio :=
      { instrument := note.instrumentType
        midi := note.midi
        name := note.name
        duration := note.duration
        velocity := note.velocity }
    hit := false
    isHolding := false
    missed := false
    hitTime := none }

/-- One iteration of the main loop of `generateChartFromMidi`
(midiUtils.ts lines 80-186) on the event `note`: the interactivity decision
(`shouldBeInteractiveFlag`), then either push an interactive note and
advance `lastTimeForHand[type]` by `note.time + length * 0.5`, or push a
background audio event. -/
def genStep (S : ℚ → ℚ) (difficulty : Difficulty) (st : GenState) (note : MidiEvent) :
    GenState :=
  if shouldBeInteractiveFlag difficulty note (st.lastFor (handForMidi note.midi)) = true then
    ({ st with
        notes := st.notes ++ [noteForEvent S st.idCount note]
        idCount := st.idCount + 1 }).setLastFor
      (handForMidi note.midi)
      (note.time + (noteForEvent S st.idCount note).length * (1/2))
  else
    { st with
      backgroundEvents := st.backgroundEvents ++
        [{ time := note.time
           instrument := note.instrumentType
           name := note.name
           duration := note.duration
           velocity := note.velocity }] }

/-- The initial loop state of `generateChartFromMidi`:
`notes = []`, `backgroundEvents = []`, `idCount = 0`,
`lastTimeForHand = { left: -1, right: -1 }`. -/
def genInit : GenState :=
  { notes := [], backgroundEvents := [], idCount := 0, lastLeft := -1, lastRight := -1 }

/-- `generateChartFromMidi` (midiUtils.ts lines 41-189).  `S` is the ambient
`Math.sin` function, passed explicitly; `tracks` is `midi.tracks`. -/
def generateChartFromMidi (S : ℚ → ℚ) (tracks : List MidiTrack)
    (difficulty : Difficulty) : ProcessedSong :=
  let allEvents := sortByTime (flattenTracks tracks)
  let st := allEvents.foldl (genStep S difficulty) genInit
  { chart := st.notes, backgroundEvents := st.backgroundEvents }


theorem insertByTime_perm (a : MidiEvent) (l : List MidiEvent) :
    (insertByTime a l).Perm (a :: l) := by
  induction l with
  | nil => simp [insertByTime]
  | cons b l ih =>
    rw [insertByTime]
    split
    · exact List.Perm.refl _
    · exact (ih.cons b).trans (List.Perm.swap a b l)

theorem sortByTime_aux_perm (l acc : List MidiEvent) :
    (l.foldl (fun acc a => insertByTime a acc) acc).Perm (acc ++ l) := by
  induction l generalizing acc with
  | nil => simp
  | cons a l ih =>
    exact (ih _).trans (((insertByTime_perm a acc).append_right l).trans List.perm_middle.symm)

theorem sortByTime_perm (l : List MidiEvent) : (sortByTime l).Perm l := by
  simpa [sortByTime] using sortByTime_aux_perm l []



@[simp] theorem setLastFor_notes (st : GenState) (h : HandType) (v : ℚ) :
    (st.setLastFor h v).notes = st.notes := by
  cases h <;> rfl

@[simp] theorem setLastFor_backgroundEvents (st : GenState) (h : HandType) (v : ℚ) :
    (st.setLastFor h v).backgroundEvents = st.backgroundEvents := by
  cases h <;> rfl

@[simp] theorem lastFor_setLastFor_same (st : GenState) (h : HandType) (v : ℚ) :
    (st.setLastFor h v).lastFor h = v := by
  cases h <;> rfl

theorem lastFor_setLastFor_other (st : GenState) (h h' : HandType) (v : ℚ)
    (hne : h' ≠ h) : (st.setLastFor h v).lastFor h' = st.lastFor h' := by
  cases h <;> cases h' <;> simp_all [GenState.setLastFor, GenState.lastFor]

@[simp] theorem noteForEvent_time (S : ℚ → ℚ) (i : ℕ) (e : MidiEvent) :
    (noteForEvent S i e).time = e.time := rfl

@[simp] theorem noteForEvent_type (S : ℚ → ℚ) (i : ℕ) (e : MidiEvent) :
    (noteForEvent S i e).type = handForMidi e.midi := rfl

@[simp] theorem noteForEvent_length (S : ℚ → ℚ) (i : ℕ) (e : MidiEvent) :
    (noteForEvent S i e).length = (if e.duration > 1/5 then e.duration else 0) := rfl

@[simp] theorem noteForEvent_audio (S : ℚ → ℚ) (i : ℕ) (e : MidiEvent) :
    (noteForEvent S i e).audio = ⟨e.instrumentType, e.midi, e.name, e.duration, e.velocity⟩ :=
  rfl

@[simp] theorem noteForEvent_lineIndex (S : ℚ → ℚ) (i : ℕ) (e : MidiEvent) :
    (noteForEvent S i e).lineIndex =
      (if handForMidi e.midi = .left then (if S (e.time * (2469/20)) > 0 then 1 else 0)
       else (if S (e.time * (2469/20)) > 0 then 2 else 3)) := rfl

@[simp] theorem noteForEvent_lineLayer (S : ℚ → ℚ) (i : ℕ) (e : MidiEvent) :
    (noteForEvent S i e).lineLayer =
      (if e.midi < 55 then 0 else if e.midi > 70 then 2 else 1) := rfl

/-- The interactivity flag is `true` exactly when none of the four exclusion
rules of the loop fired. -/
theorem shouldBeInteractiveFlag_eq_true_iff (d : Difficulty) (e : MidiEvent) (last : ℚ) :
    shouldBeInteractiveFlag d e last = true ↔
      ¬(e.instrumentType = .hihat ∧ d ≠ .Hard) ∧
      ¬(e.instrumentType = .kick ∨ e.instrumentType = .bass) ∧
      ¬(|e.time - lastNoteTimeGlobal| < 1/20 ∧ d ≠ .Hard) ∧
      ¬(e.time - last < minTimeGap d) := by
  unfold shouldBeInteractiveFlag
  by_cases hc1 : e.instrumentType = .hihat ∧ d ≠ .Hard <;>
    by_cases hc2 : e.instrumentType = .kick ∨ e.instrumentType = .bass <;>
      by_cases hc3 : |e.time - lastNoteTimeGlobal| < 1/20 ∧ d ≠ .Hard <;>
        by_cases hc4 : e.time - last < minTimeGap d <;>
          simp [hc1, hc2, hc3, hc4, ← not_lt] <;> tauto

/-- The shape of every interactive note emitted by one loop iteration of
`generateChartFromMidi` on the event `e`: its placement fields as computed at
lines 137-175 of midiUtils.ts, plus the filter conditions that must have held
for `shouldBeInteractive` to still be `true`. -/
def NoteShape (S : ℚ → ℚ) (difficulty : Difficulty) (e : MidiEvent) (n : NoteData) : Prop :=
  n.time = e.time ∧
  n.type = handForMidi e.midi ∧
  n.audio = ⟨e.instrumentType, e.midi, e.name, e.duration, e.velocity⟩ ∧
  n.length = (if e.duration > 1/5 then e.duration else 0) ∧
  n.lineIndex = (if n.type = .left then (if S (e.time * (2469/20)) > 0 then 1 else 0)
                 else (if S (e.time * (2469/20)) > 0 then 2 else 3)) ∧
  n.lineLayer = (if e.midi < 55 then 0 else if e.midi > 70 then 2 else 1) ∧
  n.cutDirection = .ANY ∧
  n.hit = false ∧ n.isHolding = false ∧ n.missed = false ∧ n.hitTime = none ∧
  e.instrumentType ≠ .kick ∧ e.instrumentType ≠ .bass ∧
  (difficulty ≠ .Hard → e.instrumentType ≠ .hihat)

/-- Case analysis of one loop iteration: either the event becomes an
interactive note appended to `notes` (with `lastTimeForHand` advanced for its
hand and the time gate satisfied) or it is appended to `backgroundEvents`
with all other state unchanged. -/
theorem genStep_spec (S : ℚ → ℚ) (d : Difficulty) (st : GenState) (e : MidiEvent) :
    (∃ n : NoteData, NoteShape S d e n ∧
      (genStep S d st e).notes = st.notes ++ [n] ∧
      (genStep S d st e).backgroundEvents = st.backgroundEvents ∧
      minTimeGap d ≤ e.time - st.lastFor n.type ∧
      (genStep S d st e).lastFor n.type = e.time + n.length * (1/2) ∧
      (∀ h, h ≠ n.type → (genStep S d st e).lastFor h = st.lastFor h)) ∨
    ((genStep S d st e).notes = st.notes ∧
      (genStep S d st e).backgroundEvents = st.backgroundEvents ++
        [⟨e.time, e.instrumentType, e.name, e.duration, e.velocity⟩] ∧
      (∀ h, (genStep S d st e).lastFor h = st.lastFor h)) := by
  unfold genStep
  split
  case isTrue hflag =>
    left
    rw [shouldBeInteractiveFlag_eq_true_iff] at hflag
    obtain ⟨hc1, hc2, hc3, hc4⟩ := hflag
    refine ⟨noteForEvent S st.idCount e, ?_, by simp, by simp, ?_, ?_, ?_⟩
    · unfold NoteShape
      refine ⟨by simp, by simp, by simp, by simp, by simp, by simp, rfl, rfl, rfl, rfl, rfl,
        ?_, ?_, ?_⟩
      · exact fun hk => hc2 (Or.inl hk)
      · exact fun hb => hc2 (Or.inr hb)
      · exact fun hd hh => hc1 ⟨hh, hd⟩
    · rw [noteForEvent_type]
      exact not_lt.mp hc4
    · rw [noteForEvent_type]
      simp
    · intro h hne
      rw [noteForEvent_type] at hne
      rw [lastFor_setLastFor_other _ _ _ _ hne]
      cases h <;> rfl
  case isFalse hflag =>
    right
    exact ⟨rfl, rfl, fun h => by cases h <;> rfl⟩



/-- Projection of a generated interactive note onto the audio data it carries
(the fields a background event would have carried for the same MIDI event). -/
def noteProj (n : NoteData) : BackgroundAudioEvent :=
  ⟨n.time, n.audio.instrument, n.audio.name, n.audio.duration, n.audio.velocity⟩

/-- Projection of a flattened MIDI event onto the background-event fields. -/
def eventProj (e : MidiEvent) : BackgroundAudioEvent :=
  ⟨e.time, e.instrumentType, e.name, e.duration, e.velocity⟩

/-- Every note in the loop's `notes` accumulator either was already there or
matches `NoteShape` for one of the processed events. -/
theorem foldl_notes_shape (S : ℚ → ℚ) (d : Difficulty) :
    ∀ (l : List MidiEvent) (st : GenState),
      ∀ n ∈ (l.foldl (genStep S d) st).notes,
        n ∈ st.notes ∨ ∃ e ∈ l, NoteShape S d e n := by
  intro l
  induction l with
  | nil => intro st n hn; exact Or.inl hn
  | cons e l ih =>
    intro st n hn
    rcases ih (genStep S d st e) n hn with hmem | ⟨e', he', hshape⟩
    · rcases genStep_spec S d st e with ⟨m, hm, hnotes, _⟩ | ⟨hnotes, _⟩
      · rw [hnotes] at hmem
        rcases List.mem_append.mp hmem with h | h
        · exact Or.inl h
        · exact Or.inr ⟨e, List.mem_cons_self e l, by
            simpa [List.mem_singleton.mp h] using hm⟩
      · rw [hnotes] at hmem
        exact Or.inl hmem
    · exact Or.inr ⟨e', List.mem_cons_of_mem e he', hshape⟩

/-- Every note in a generated chart matches `NoteShape` for some flattened
input event. -/
theorem chart_notes_shape (S : ℚ → ℚ) (d : Difficulty) (tracks : List MidiTrack) :
    ∀ n ∈ (generateChartFromMidi S tracks d).chart,
      ∃ e ∈ flattenTracks tracks, NoteShape S d e n := by
  intro n hn
  rcases foldl_notes_shape S d (sortByTime (flattenTracks tracks)) genInit n hn with
    h | ⟨e, he, hshape⟩
  · simp [genInit] at h
  · exact ⟨e, (sortByTime_perm _).mem_iff.mp he, hshape⟩

/-- Multiset bookkeeping of one fold: the projections of the emitted notes
plus the background events equal the initial contents plus the projections of
all processed events. -/
theorem foldl_partition (S : ℚ → ℚ) (d : Difficulty) :
    ∀ (l : List MidiEvent) (st : GenState),
      (↑((l.foldl (genStep S d) st).notes.map noteProj) +
        ↑((l.foldl (genStep S d) st).backgroundEvents) : Multiset BackgroundAudioEvent) =
      ↑(st.notes.map noteProj) + ↑st.backgroundEvents + ↑(l.map eventProj) := by
  intro l
  induction l with
  | nil => intro st; simp
  | cons e l ih =>
    intro st
    rw [List.foldl_cons, ih (genStep S d st e)]
    rcases genStep_spec S d st e with ⟨m, hm, hnotes, hbg, _⟩ | ⟨hnotes, hbg, _⟩
    · have hproj : noteProj m = eventProj e := by
        obtain ⟨ht, _, haudio, _⟩ := hm
        simp [noteProj, eventProj, ht, haudio]
      rw [hnotes, hbg]
      simp [hproj]
      exact List.Perm.append_left _ List.perm_middle.symm
    · rw [hnotes, hbg]
      simp [eventProj]



/-- The per-hand spacing relation of the spec: the next note on a hand starts
at least `length*0.5 + minGap(difficulty)` after the previous one. -/
def gapRel (d : Difficulty) (a b : NoteData) : Prop :=
  a.time + a.length * (1/2) + minTimeGap d ≤ b.time

/-- Loop invariant for the per-hand time gate: the notes of hand `h` emitted
so far are `gapRel`-chained, and `lastTimeForHand[h]` equals
`time + length*0.5` of the hand's last emitted note. -/
def GapInv (d : Difficulty) (h : HandType) (st : GenState) : Prop :=
  List.Chain' (gapRel d) (st.notes.filter (fun n => n.type == h)) ∧
  ∀ l ∈ (st.notes.filter (fun n => n.type == h)).getLast?,
    st.lastFor h = l.time + l.length * (1/2)

theorem genStep_gapInv (S : ℚ → ℚ) (d : Difficulty) (st : GenState) (e : MidiEvent)
    (h : HandType) (hinv : GapInv d h st) : GapInv d h (genStep S d st e) := by
  rcases genStep_spec S d st e with
    ⟨n, hshape, hnotes, _, hgate, hlastSame, hlastOther⟩ | ⟨hnotes, _, hlast⟩
  · obtain ⟨htime, _⟩ := hshape
    by_cases hty : n.type = h
    · have hfil : (genStep S d st e).notes.filter (fun n => n.type == h) =
          st.notes.filter (fun n => n.type == h) ++ [n] := by
        rw [hnotes, List.filter_append]
        simp [hty]
      constructor
      · rw [hfil]
        refine List.Chain'.append hinv.1 (List.chain'_singleton n) ?_
        intro x hx y hy
        rw [List.head?_cons, Option.mem_some_iff] at hy
        subst hy
        have hlx := hinv.2 x hx
        have : minTimeGap d ≤ e.time - st.lastFor h := by rw [← hty]; exact hgate
        unfold gapRel
        rw [htime, ← hlx]
        linarith
      · rw [hfil]
        intro l hl
        rw [List.getLast?_concat, Option.mem_some_iff] at hl
        subst hl
        rw [← hty, hlastSame, htime]
    · have hfil : (genStep S d st e).notes.filter (fun n => n.type == h) =
          st.notes.filter (fun n => n.type == h) := by
        rw [hnotes, List.filter_append]
        simp [hty]
      have hl : (genStep S d st e).lastFor h = st.lastFor h :=
        hlastOther h (fun hc => hty hc.symm)
      exact ⟨by rw [hfil]; exact hinv.1, by rw [hfil, hl]; exact hinv.2⟩
  · exact ⟨by rw [hnotes]; exact hinv.1, by rw [hnotes, hlast h]; exact hinv.2⟩

theorem foldl_gapInv (S : ℚ → ℚ) (d : Difficulty) (h : HandType) :
    ∀ (l : List MidiEvent) (st : GenState),
      GapInv d h st → GapInv d h (l.foldl (genStep S d) st) := by
  intro l
  induction l with
  | nil => intro st hinv; exact hinv
  | cons e l ih => intro st hinv; exact ih _ (genStep_gapInv S d st e h hinv)

/-- The chart of a generated song satisfies the per-hand gap chain. -/
theorem chart_gapChain (S : ℚ → ℚ) (d : Difficulty) (tracks : List MidiTrack)
    (h : HandType) :
    List.Chain' (gapRel d)
      ((generateChartFromMidi S tracks d).chart.filter (fun n => n.type == h)) := by
  have hinit : GapInv d h genInit := by
    constructor
    · simp [genInit]
    · simp [genInit]
  exact (foldl_gapInv S d h (sortByTime (flattenTracks tracks)) genInit hinit).1



/-- A concrete sine oracle that is `0` everywhere (sign never positive). -/
def zeroSin : ℚ → ℚ := fun _ => 0

/-- A concrete sine oracle that is `1` everywhere (sign always positive). -/
def oneSin : ℚ → ℚ := fun _ => 1

/-- Failing input for the chord de-duplication claim: one non-percussion
track with two lead notes 0.02s apart (times 1 and 1.02 = 51/50), pitches 60
and 64, so they are assigned to different hands. -/
def c1Track : MidiTrack :=
  { percussion := false, channel := 0,
    notes := [ { time := 1, midi := 60, name := "C4", velocity := 4/5, duration := 1/10 },
               { time := 51/50, midi := 64, name := "E4", velocity := 4/5, duration := 1/10 } ] }

/-- Input for the lane-assignment counterexample: a single right-hand
(pitch 64) lead note at time 1. -/
def c2Track : MidiTrack :=
  { percussion := false, channel := 0,
    notes := [ { time := 1, midi := 64, name := "E4", velocity := 4/5, duration := 1/10 } ] }

/-- C1: the spec claims that on Medium difficulty an event within 0.05s of
the immediately preceding event is routed to `backgroundEvents` (chord
de-duplication).  Evaluating the embedded generator on two notes 0.02s apart
(different hands, so the per-hand time gate does not fire either) shows BOTH
notes stay interactive and the background list stays empty: the source's
`lastNoteTimeGlobal` is a `const -1` that is never updated, so the
`timeDiff < 0.05` check never fires for any event at a nonnegative time. -/
theorem claim_C1_dedup_codeEval :
    (generateChartFromMidi zeroSin [c1Track] .Medium).chart.length = 2 ∧
    (generateChartFromMidi zeroSin [c1Track] .Medium).backgroundEvents = [] ∧
    |(51:ℚ)/50 - 1| < 1/20 := by
  with_unfolding_all decide

/-- C2 counterexample: on the single right-hand note of `c2Track`, the sine
oracle is positive at the hashed time, yet the generated lane is 2 — the
LOWER lane of the right-hand pair {2,3} — contradicting the claim that a
positive sign always picks the higher-numbered lane (3 for the right hand). -/
theorem claim_C2_lane_counterexample :
    ((generateChartFromMidi oneSin [c2Track] .Medium).chart.map
        (fun n => (n.type, n.lineIndex)) = [(.right, 2)]) ∧
    0 < oneSin ((1:ℚ) * (2469/20)) := by
  with_unfolding_all decide

/-- C2 amended: the lane of every interactive note is chosen by the sign of
`sin(time * 123.45)`: a left-hand note gets a lane in {0,1} and a right-hand
note a lane in {2,3}; a positive sign picks lane 1 for the left hand but
lane 2 (the lower lane) for the right hand, and otherwise lane 0 (left) or
lane 3 (right). -/
theorem claim_C2_lane_amended (S : ℚ → ℚ) (tracks : List MidiTrack) (d : Difficulty) :
    ∀ n ∈ (generateChartFromMidi S tracks d).chart,
      (n.type = .left →
        (n.lineIndex = 0 ∨ n.lineIndex = 1) ∧
        (0 < S (n.time * (2469/20)) → n.lineIndex = 1) ∧
        (¬0 < S (n.time * (2469/20)) → n.lineIndex = 0)) ∧
      (n.type = .right →
        (n.lineIndex = 2 ∨ n.lineIndex = 3) ∧
        (0 < S (n.time * (2469/20)) → n.lineIndex = 2) ∧
        (¬0 < S (n.time * (2469/20)) → n.lineIndex = 3)) := by
  intro n hn
  obtain ⟨e, _, htime, hty, _, _, hlane, _⟩ := chart_notes_shape S d tracks n hn
  rw [htime]
  constructor
  · intro hL
    rw [hL] at hlane
    simp at hlane
    by_cases hs : 0 < S (e.time * (2469/20)) <;> simp [hs] at hlane <;> simp [hlane, hs]
  · intro hR
    rw [hR] at hlane
    simp at hlane
    by_cases hs : 0 < S (e.time * (2469/20)) <;> simp [hs] at hlane <;> simp [hlane, hs]

/-- Witness for `claim_C2_lane_amended` at a concrete input: the single note
of `c2Track` under the always-positive oracle is right-handed with lane 2. -/
theorem claim_C2_lane_amended_witness :
    (noteForEvent oneSin 0 ⟨1, 64, "E4", 4/5, 1/10, .lead⟩) ∈
      (generateChartFromMidi oneSin [c2Track] .Medium).chart ∧
    (noteForEvent oneSin 0 ⟨1, 64, "E4", 4/5, 1/10, .lead⟩).type = .right ∧
    (noteForEvent oneSin 0 ⟨1, 64, "E4", 4/5, 1/10, .lead⟩).lineIndex = 2 := by
  have hmem : (noteForEvent oneSin 0 ⟨1, 64, "E4", 4/5, 1/10, .lead⟩) ∈
      (generateChartFromMidi oneSin [c2Track] .Medium).chart := by
    with_unfolding_all decide
  refine ⟨hmem, by with_unfolding_all decide, ?_⟩
  have := (claim_C2_lane_amended oneSin [c2Track] .Medium _ hmem).2
    (by with_unfolding_all decide)
  exact this.2.1 (by with_unfolding_all decide)



/-- C3: chart generation is deterministic — the output (chart and
background list, all fields included) is a function of the sine oracle, the
MIDI input and the difficulty alone: two calls on equal inputs (and
pointwise-equal ambient `Math.sin`) give equal results. -/
theorem claim_C3_deterministic (S₁ S₂ : ℚ → ℚ) (tracks₁ tracks₂ : List MidiTrack)
    (d₁ d₂ : Difficulty) (hS : ∀ x, S₁ x = S₂ x) (ht : tracks₁ = tracks₂)
    (hd : d₁ = d₂) :
    (generateChartFromMidi S₁ tracks₁ d₁).chart =
      (generateChartFromMidi S₂ tracks₂ d₂).chart ∧
    (generateChartFromMidi S₁ tracks₁ d₁).backgroundEvents =
      (generateChartFromMidi S₂ tracks₂ d₂).backgroundEvents := by
  have hfun : S₁ = S₂ := funext hS
  subst hfun ht hd
  exact ⟨rfl, rfl⟩

/-- Witness for `claim_C3_deterministic` at a concrete input. -/
theorem claim_C3_deterministic_witness :
    (generateChartFromMidi zeroSin [c1Track] .Medium).chart =
      (generateChartFromMidi zeroSin [c1Track] .Medium).chart ∧
    (generateChartFromMidi zeroSin [c1Track] .Medium).backgroundEvents =
      (generateChartFromMidi zeroSin [c1Track] .Medium).backgroundEvents :=
  claim_C3_deterministic zeroSin zeroSin [c1Track] [c1Track] .Medium .Medium
    (fun _ => rfl) rfl rfl

@[simp] theorem genInit_notes : genInit.notes = [] := rfl

@[simp] theorem genInit_backgroundEvents : genInit.backgroundEvents = [] := rfl

theorem generate_chart_eq (S : ℚ → ℚ) (tracks : List MidiTrack) (d : Difficulty) :
    (generateChartFromMidi S tracks d).chart =
      ((sortByTime (flattenTracks tracks)).foldl (genStep S d) genInit).notes := rfl

theorem generate_bg_eq (S : ℚ → ℚ) (tracks : List MidiTrack) (d : Difficulty) :
    (generateChartFromMidi S tracks d).backgroundEvents =
      ((sortByTime (flattenTracks tracks)).foldl (genStep S d) genInit).backgroundEvents := rfl

/-- Shared partition fact: the projections of the chart notes plus the
background events form exactly the multiset of all flattened input events. -/
theorem generate_partition (S : ℚ → ℚ) (tracks : List MidiTrack) (d : Difficulty) :
    ((↑((generateChartFromMidi S tracks d).chart.map noteProj) +
      ↑((generateChartFromMidi S tracks d).backgroundEvents) :
        Multiset BackgroundAudioEvent) =
      ↑((flattenTracks tracks).map eventProj)) := by
  have h1 := foldl_partition S d (sortByTime (flattenTracks tracks)) genInit
  simp at h1
  rw [generate_chart_eq, generate_bg_eq, Multiset.coe_add]
  exact Multiset.coe_eq_coe.mpr (h1.trans ((sortByTime_perm _).map eventProj))

/-- C4: coverage partition — projected onto the audio fields both routes
carry, the multiset of interactive chart notes plus the multiset of
background events equals the multiset of all flattened input events (every
input event lands in exactly one of the two outputs); and an empty flattened
input yields an empty chart and an empty background list. -/
theorem claim_C4_partition (S : ℚ → ℚ) (tracks : List MidiTrack) (d : Difficulty) :
    ((↑((generateChartFromMidi S tracks d).chart.map noteProj) +
      ↑((generateChartFromMidi S tracks d).backgroundEvents) :
        Multiset BackgroundAudioEvent) =
      ↑((flattenTracks tracks).map eventProj)) ∧
    (flattenTracks tracks = [] →
      (generateChartFromMidi S tracks d).chart = [] ∧
      (generateChartFromMidi S tracks d).backgroundEvents = []) := by
  refine ⟨generate_partition S tracks d, ?_⟩
  intro hfl
  unfold generateChartFromMidi
  rw [hfl]
  exact ⟨rfl, rfl⟩

/-- Witness for `claim_C4_partition`: concrete two-note input and the empty
input, hypotheses discharged by evaluation. -/
theorem claim_C4_partition_witness :
    ((↑((generateChartFromMidi zeroSin [c1Track] .Medium).chart.map noteProj) +
      ↑((generateChartFromMidi zeroSin [c1Track] .Medium).backgroundEvents) :
        Multiset BackgroundAudioEvent) =
      ↑((flattenTracks [c1Track]).map eventProj)) ∧
    ((generateChartFromMidi zeroSin [] .Medium).chart = [] ∧
      (generateChartFromMidi zeroSin [] .Medium).backgroundEvents = []) :=
  ⟨(claim_C4_partition zeroSin [c1Track] .Medium).1,
   (claim_C4_partition zeroSin [] .Medium).2 rfl⟩

/-- C7: per-hand minimum time gap.  Consecutive interactive notes of the
same hand satisfy `time[n+1] ≥ time[n] + length[n]*0.5 + minGap(difficulty)
− ε` for every `ε ≥ 0`, and `minGap` is 0.60s / 0.35s / 0.15s on
Easy / Medium / Hard. -/
theorem claim_C7_minGap (S : ℚ → ℚ) (tracks : List MidiTrack) (d : Difficulty)
    (h : HandType) (ε : ℚ) (hε : 0 ≤ ε) :
    List.Chain' (fun a b => a.time + a.length * (1/2) + minTimeGap d - ε ≤ b.time)
      ((generateChartFromMidi S tracks d).chart.filter (fun n => n.type == h)) ∧
    minTimeGap .Easy = 3/5 ∧ minTimeGap .Medium = 7/20 ∧ minTimeGap .Hard = 3/20 := by
  refine ⟨?_, rfl, rfl, rfl⟩
  refine (chart_gapChain S d tracks h).imp ?_
  intro a b hab
  unfold gapRel at hab
  linarith

/-- Witness for `claim_C7_minGap` on the two-note input with `ε = 0`. -/
theorem claim_C7_minGap_witness :
    ((0:ℚ) ≤ 0) ∧
    List.Chain' (fun a b => a.time + a.length * (1/2) + minTimeGap .Medium - 0 ≤ b.time)
      ((generateChartFromMidi zeroSin [c1Track] .Medium).chart.filter
        (fun n => n.type == HandType.left)) :=
  ⟨le_refl 0,
   (claim_C7_minGap zeroSin [c1Track] .Medium .left 0 (le_refl 0)).1⟩

/-- C8: rhythm and hi-hat exclusion.  No chart note carries a kick or bass
instrument (any difficulty), nor a hihat on non-Hard difficulties; and the
kick/bass events of the input all appear in the background list (multiset
equality of the kick/bass projections). -/
theorem claim_C8_rhythmExclusion (S : ℚ → ℚ) (tracks : List MidiTrack) (d : Difficulty) :
    (∀ n ∈ (generateChartFromMidi S tracks d).chart,
      n.audio.instrument ≠ .kick ∧ n.audio.instrument ≠ .bass ∧
      (d ≠ .Hard → n.audio.instrument ≠ .hihat)) ∧
    (Multiset.filter (fun b => b.instrument = .kick ∨ b.instrument = .bass)
        (↑((generateChartFromMidi S tracks d).backgroundEvents) :
          Multiset BackgroundAudioEvent) =
      Multiset.filter (fun b => b.instrument = .kick ∨ b.instrument = .bass)
        (↑((flattenTracks tracks).map eventProj) : Multiset BackgroundAudioEvent)) := by
  have hchart : ∀ n ∈ (generateChartFromMidi S tracks d).chart,
      n.audio.instrument ≠ .kick ∧ n.audio.instrument ≠ .bass ∧
      (d ≠ .Hard → n.audio.instrument ≠ .hihat) := by
    intro n hn
    obtain ⟨e, _, _, _, haudio, _, _, _, _, _, _, _, _, hk, hb, hh⟩ :=
      chart_notes_shape S d tracks n hn
    rw [haudio]
    exact ⟨hk, hb, hh⟩
  refine ⟨hchart, ?_⟩
  have hpart := generate_partition S tracks d
  have hfil0 : Multiset.filter (fun b => b.instrument = .kick ∨ b.instrument = .bass)
      (↑((generateChartFromMidi S tracks d).chart.map noteProj) :
        Multiset BackgroundAudioEvent) = 0 := by
    rw [Multiset.filter_eq_nil]
    intro b hb
    rw [Multiset.mem_coe, List.mem_map] at hb
    obtain ⟨n, hn, rfl⟩ := hb
    obtain ⟨hk, hbass, _⟩ := hchart n hn
    simp [noteProj]
    exact ⟨hk, hbass⟩
  calc Multiset.filter (fun b => b.instrument = .kick ∨ b.instrument = .bass)
        (↑((generateChartFromMidi S tracks d).backgroundEvents) :
          Multiset BackgroundAudioEvent)
      = Multiset.filter (fun b => b.instrument = .kick ∨ b.instrument = .bass)
          (↑((generateChartFromMidi S tracks d).chart.map noteProj) +
            ↑((generateChartFromMidi S tracks d).backgroundEvents)) := by
        rw [Multiset.filter_add, hfil0, zero_add]
    _ = Multiset.filter (fun b => b.instrument = .kick ∨ b.instrument = .bass)
          (↑((flattenTracks tracks).map eventProj)) := by rw [hpart]



/-- A 3D vector (`THREE.Vector3`) with rational coordinates. -/
structure Vec3 where
  x : ℚ
  y : ℚ
  z : ℚ
deriving DecidableEq, Repr

/-- A quaternion (`THREE.Quaternion`); carried by `HandPositions` but never
read by the gameplay tick. -/
structure Quat where
  x : ℚ
  y : ℚ
  z : ℚ
  w : ℚ
deriving DecidableEq, Repr

/-- `HandPositions` from `src/types.ts`: per-hand optional position and
rotation plus (always-present) velocity vectors. -/
structure HandPositions where
  left : Option Vec3
  right : Option Vec3
  leftRotation : Option Quat
  rightRotation : Option Quat
  leftVelocity : Vec3
  rightVelocity : Vec3
deriving DecidableEq, Repr

/-- `GameMode`: the four modes the `GameScene` switch distinguishes. -/
inductive GameMode where
  | STANDARD
  | RIGHT_HAND_ONLY
  | LEFT_HAND_ONLY
  | COOP_SPLIT
deriving DecidableEq, Repr

/-- The geometry constants imported by `GameScene` from the repository's
`constants.ts` (`PLAYER_Z`, `MISS_Z`, `SPAWN_Z`, `NOTE_SPEED`,
`LANE_X_POSITIONS`, `LAYER_Y_POSITIONS`).  `constants.ts` itself is not in
the sources, so its values stay abstract: every engine theorem is proved for
an arbitrary choice. -/
structure EngineConstants where
  PLAYER_Z : ℚ
  MISS_Z : ℚ
  SPAWN_Z : ℚ
  NOTE_SPEED : ℚ
  LANE_X_POSITIONS : ℕ → ℚ
  LAYER_Y_POSITIONS : ℕ → ℚ

/-- The per-tick input of the `useFrame` gameplay loop: the audio-clock time
(`getCurrentTime()`), the game mode, and the shared hand-pose snapshot
(`handPositionsRef.current`) read at the start of the tick. -/
structure TickInput where
  time : ℚ
  gameMode : GameMode
  hands : HandPositions
deriving DecidableEq, Repr

/-- The outward events of the engine: `onNoteHit(note, goodCut)` (routed
through `handleHit`, GameScene lines 220-226), `onNoteMiss(note)` and
`onNoteHold(note)`.  Each event carries the note as visible to the callback
at call time. -/
inductive GameEvent where
  | noteHit (note : NoteData) (goodCut : Bool)
  | noteMiss (note : NoteData)
  | noteHold (note : NoteData)
deriving DecidableEq, Repr

/-- Result of processing one active note on one tick: the note's (possibly
mutated) state, whether it stays in `activeNotesRef` (`keep = false` models
`splice`-removal), and the emitted events in order. -/
structure NoteUpd where
  note : NoteData
  keep : Bool
  events : List GameEvent
deriving DecidableEq, Repr

/-- `note.type === 'left' ? hands.left : hands.right` (GameScene lines 322
and 415). -/
def handPosFor (hands : HandPositions) : HandType → Option Vec3
  | .left => hands.left
  | .right => hands.right

/-- The note's current Z position from the audio clock (GameScene lines
361-362): `PLAYER_Z - (note.time - time) * NOTE_SPEED`. -/
def currentZOf (C : EngineConstants) (tnow : ℚ) (note : NoteData) : ℚ :=
  C.PLAYER_Z - (note.time - tnow) * C.NOTE_SPEED

/-- The hold test of the tail logic (GameScene lines 325-341): the tracked
hand must be within planar (X/Y) distance 0.7 of the note's fixed lane/layer
anchor at the player plane.  The source compares
`Math.sqrt(dx*dx + dy*dy) < 0.7`; this is embedded in the equivalent squared
form `dx^2 + dy^2 < 0.7^2` (both sides are nonnegative). -/
def holdingNow (C : EngineConstants) (handPos : Option Vec3) (note : NoteData) : Bool :=
  match handPos with
  | some p =>
    if |p.x - C.LANE_X_POSITIONS note.lineIndex| ^ 2 +
        |p.y - C.LAYER_Y_POSITIONS note.lineLayer| ^ 2 < (7/10 : ℚ) ^ 2 then true
    else false
  | none => false

/-- The hit resolution shared by the auto-play branches (lines 378-390,
396-409) and the collision branch (lines 438-455): set `hit` and `hitTime`,
invoke `handleHit(note, true)` (which forwards `onNoteHit(note, goodCut)`),
then keep the note holding if it is a long note, else remove it.  The
callback sees the note before `isHolding` is set, as in the source. -/
def resolveHit (tnow : ℚ) (note : NoteData) : NoteUpd :=
  if note.length > 0 then
    { note := { note with hit := true, hitTime := some tnow, isHolding := true }
      keep := true
      events := [.noteHit { note with hit := true, hitTime := some tnow } true] }
  else
    { note := { note with hit := true, hitTime := some tnow }
      keep := false
      events := [.noteHit { note with hit := true, hitTime := some tnow } true] }

/-- The active-long-note tail logic (GameScene lines 306-355): when the hold
window has elapsed (`time ≥ note.time + note.length`) the note is removed
with `isHolding` cleared; otherwise `isHolding` is recomputed from the hold
test and `onNoteHold` fires while holding. -/
def holdTailStep (C : EngineConstants) (env : TickInput) (note : NoteData) : NoteUpd :=
  if env.time ≥ note.time + note.length then
    { note := { note with isHolding := false }, keep := false, events := [] }
  else
    { note := { note with isHolding := holdingNow C (handPosFor env.hands note.type) note }
      keep := true
      events :=
        if holdingNow C (handPosFor env.hands note.type) note = true then
          [.noteHold { note with
            isHolding := holdingNow C (handPosFor env.hands note.type) note }]
        else [] }

/-- The standard head logic (GameScene lines 358-457): miss check first,
then the two single-hand auto-play branches, then the bounded-window
collision test (planar distance < 0.6, depth distance < 1.2 — again the
planar comparison `Math.sqrt(dx*dx+dy*dy) < 0.6` is embedded squared).
`0.1 = 1/10`, `2.5 = 5/2`, `1.5 = 3/2`, `1.2 = 6/5`. -/
def headStep (C : EngineConstants) (env : TickInput) (note : NoteData) : NoteUpd :=
  if currentZOf C env.time note > C.MISS_Z then
    { note := { note with missed := true }
      keep := false
      events := [.noteMiss { note with missed := true }] }
  else if env.gameMode = .RIGHT_HAND_ONLY ∧ note.type = .left ∧ note.hit = false ∧
      currentZOf C env.time note ≥ C.PLAYER_Z - 1/10 then
    resolveHit env.time note
  else if env.gameMode = .LEFT_HAND_ONLY ∧ note.type = .right ∧ note.hit = false ∧
      currentZOf C env.time note ≥ C.PLAYER_Z - 1/10 then
    resolveHit env.time note
  else if note.hit = false ∧ currentZOf C env.time note > C.PLAYER_Z - 5/2 ∧
      currentZOf C env.time note < C.PLAYER_Z + 3/2 then
    match handPosFor env.hands note.type with
    | some p =>
      if |p.x - C.LANE_X_POSITIONS note.lineIndex| ^ 2 +
          |p.y - C.LAYER_Y_POSITIONS note.lineLayer| ^ 2 < (3/5 : ℚ) ^ 2 ∧
          |p.z - currentZOf C env.time note| < 6/5 then
        resolveHit env.time note
      else { note := note, keep := true, events := [] }
    | none => { note := note, keep := true, events := [] }
  else { note := note, keep := true, events := [] }

/-- One active-note update of the per-frame loop (GameScene lines 301-458):
missed notes are skipped (`continue`), already-hit long notes run the tail
logic, everything else runs the head logic.  The loop body touches no
cross-note state, so one tick of the loop is this function applied to each
active note. -/
def updateNote (C : EngineConstants) (env : TickInput) (note : NoteData) : NoteUpd :=
  if note.missed = true then { note := note, keep := true, events := [] }
  else if note.hit = true ∧ note.length > 0 then holdTailStep C env note
  else headStep C env note

/-- A note's evolution across a sequence of ticks: while the note is in the
active set (`Bool` flag) each tick applies `updateNote`; once removed it is
never re-evaluated (the spawn cursor `nextNoteIndexRef` only moves forward,
so a note enters the active set at most once). -/
def noteRun (C : EngineConstants) : List TickInput → NoteData × Bool →
    (NoteData × Bool) × List GameEvent
  | [], s => (s, [])
  | env :: rest, s =>
    if s.2 = true then
      ((noteRun C rest ((updateNote C env s.1).note, (updateNote C env s.1).keep)).1,
        (updateNote C env s.1).events ++
          (noteRun C rest ((updateNote C env s.1).note, (updateNote C env s.1).keep)).2)
    else (s, [])



/-- Recogniser for `onNoteMiss` events. -/
def isMissEv : GameEvent → Bool
  | .noteMiss _ => true
  | _ => false

/-- `true` unless the event is a hit event carrying `goodCut = false`. -/
def goodCutOk : GameEvent → Bool
  | .noteHit _ g => g
  | _ => true

/-- A missed note is skipped by the loop (`continue`): unchanged, kept, no
events — in particular replaying any tick input to it emits nothing. -/
theorem updateNote_missed (C : EngineConstants) (env : TickInput) (note : NoteData)
    (hm : note.missed = true) : updateNote C env note = ⟨note, true, []⟩ := by
  simp [updateNote, hm]

/-- `hit` never reverts: every branch of the tick either preserves `hit` or
sets it to `true`. -/
theorem updateNote_hit_mono (C : EngineConstants) (env : TickInput) (note : NoteData)
    (hh : note.hit = true) : (updateNote C env note).note.hit = true := by
  unfold updateNote holdTailStep headStep resolveHit
  split_ifs <;> try simp [hh]
  all_goals split <;> (try split_ifs) <;> simp [hh]

/-- `missed` never reverts. -/
theorem updateNote_missed_mono (C : EngineConstants) (env : TickInput) (note : NoteData)
    (hm : note.missed = true) : (updateNote C env note).note.missed = true := by
  rw [updateNote_missed C env note hm]
  exact hm

/-- Each tick emits at most one miss event for a note, and a tick that emits
one removes the note from the active set. -/
theorem updateNote_missCount (C : EngineConstants) (env : TickInput) (note : NoteData) :
    ((updateNote C env note).events.countP isMissEv = 0) ∨
    ((updateNote C env note).events.countP isMissEv = 1 ∧
      (updateNote C env note).keep = false) := by
  unfold updateNote holdTailStep headStep resolveHit
  split_ifs <;> try simp [isMissEv]
  all_goals split <;> (try split_ifs) <;> simp [isMissEv]

/-- Every hit event of every branch carries `goodCut = true`. -/
theorem updateNote_goodCut (C : EngineConstants) (env : TickInput) (note : NoteData) :
    ((updateNote C env note).events.all goodCutOk) = true := by
  unfold updateNote holdTailStep headStep resolveHit
  split_ifs <;> try simp [goodCutOk]
  all_goals split <;> (try split_ifs) <;> simp [goodCutOk]



/-- A note removed from the active set is frozen: no further updates or
events. -/
theorem noteRun_inactive (C : EngineConstants) (envs : List TickInput) (n : NoteData) :
    noteRun C envs (n, false) = ((n, false), []) := by
  cases envs <;> simp [noteRun]

/-- A missed note produces no further state change and no further events
under any tick sequence. -/
theorem noteRun_missedState (C : EngineConstants) (envs : List TickInput) :
    ∀ (s : NoteData × Bool), s.1.missed = true → noteRun C envs s = (s, []) := by
  induction envs with
  | nil => intro s _; rfl
  | cons env rest ih =>
    intro s hm
    obtain ⟨n, b⟩ := s
    cases b with
    | false => exact noteRun_inactive C (env :: rest) n
    | true =>
      simp only [noteRun, if_true]
      rw [updateNote_missed C env n hm]
      rw [ih (n, true) hm]
      rfl

/-- `hit` is monotone along any tick sequence. -/
theorem noteRun_hit_mono (C : EngineConstants) (envs : List TickInput) :
    ∀ (n : NoteData) (b : Bool), n.hit = true →
      ((noteRun C envs (n, b)).1.1).hit = true := by
  induction envs with
  | nil => intro n b hh; exact hh
  | cons env rest ih =>
    intro n b hh
    cases b with
    | false => rw [noteRun_inactive]; exact hh
    | true =>
      simp only [noteRun, if_true]
      exact ih _ _ (updateNote_hit_mono C env n hh)

/-- At most one miss event is ever emitted for a note. -/
theorem noteRun_missCount (C : EngineConstants) (envs : List TickInput) :
    ∀ (n : NoteData) (b : Bool),
      (noteRun C envs (n, b)).2.countP isMissEv ≤ 1 := by
  induction envs with
  | nil => intro n b; simp [noteRun]
  | cons env rest ih =>
    intro n b
    cases b with
    | false => rw [noteRun_inactive]; simp
    | true =>
      simp only [noteRun, if_true]
      rw [List.countP_append]
      rcases updateNote_missCount C env n with h0 | ⟨h1, hkeep⟩
      · rw [h0]
        simpa using ih _ _
      · rw [h1, hkeep, noteRun_inactive]
        simp



/-- C5: state monotonicity and absorbing terminal states.  Along any tick
sequence from an active note: an already-missed note is never changed and
emits nothing (so replaying the same tick to it produces no duplicate
`onMiss`); `hit` is monotone; at most one miss event is ever emitted; and
once a run has left the note missed, any continuation changes nothing and
emits nothing — in particular `hit` is never set afterwards and `missed`
never reverts. -/
theorem claim_C5_monotonic (C : EngineConstants) (envs₁ envs₂ : List TickInput)
    (n : NoteData) :
    (n.missed = true → noteRun C envs₁ (n, true) = ((n, true), [])) ∧
    (n.hit = true → ((noteRun C envs₁ (n, true)).1.1).hit = true) ∧
    ((noteRun C envs₁ (n, true)).2.countP isMissEv ≤ 1) ∧
    ((noteRun C envs₁ (n, true)).1.1.missed = true →
      noteRun C envs₂ (noteRun C envs₁ (n, true)).1 =
        ((noteRun C envs₁ (n, true)).1, [])) :=
  ⟨fun hm => noteRun_missedState C envs₁ (n, true) hm,
   fun hh => noteRun_hit_mono C envs₁ n true hh,
   noteRun_missCount C envs₁ n true,
   fun hm => noteRun_missedState C envs₂ _ hm⟩

/-- C6: hold-note lifecycle for a non-missed, already-hit long note.  Once
the hold window elapses the note is removed with `isHolding` cleared and no
event, regardless of the hand; on earlier ticks the note is kept,
`isHolding` holds exactly when the assigned hand is tracked within planar
distance 0.7 of the lane/layer anchor (squared comparison), `onNoteHold`
fires exactly while holding, and nothing else about the note changes. -/
theorem claim_C6_holdLifecycle (C : EngineConstants) (env : TickInput) (n : NoteData)
    (hm : n.missed = false) (hh : n.hit = true) (hl : n.length > 0) :
    (n.time + n.length ≤ env.time →
      updateNote C env n = ⟨{ n with isHolding := false }, false, []⟩) ∧
    (env.time < n.time + n.length →
      (updateNote C env n).keep = true ∧
      ((updateNote C env n).note.isHolding = true ↔
        ∃ p, handPosFor env.hands n.type = some p ∧
          |p.x - C.LANE_X_POSITIONS n.lineIndex| ^ 2 +
            |p.y - C.LAYER_Y_POSITIONS n.lineLayer| ^ 2 < (7/10 : ℚ) ^ 2) ∧
      ((updateNote C env n).events =
        if (updateNote C env n).note.isHolding = true
        then [GameEvent.noteHold (updateNote C env n).note] else []) ∧
      (updateNote C env n).note =
        { n with isHolding := (updateNote C env n).note.isHolding }) := by
  have hsel : updateNote C env n = holdTailStep C env n := by
    simp [updateNote, hm, hh, hl]
  constructor
  · intro hend
    rw [hsel]
    unfold holdTailStep
    rw [if_pos hend]
  · intro hlt
    rw [hsel]
    unfold holdTailStep
    rw [if_neg (not_le.mpr hlt)]
    refine ⟨rfl, ?_, ?_, ?_⟩
    · cases hcase : handPosFor env.hands n.type with
      | none => simp [holdingNow, hcase]
      | some p =>
        simp only [holdingNow, hcase]
        split_ifs with hd
        · simp only [sq_abs] at hd
          simp [hd]
        · simp only [sq_abs] at hd
          simp [not_lt.mp hd]
    · simp
    · simp

/-- C9: hit detection ignores hand velocity (and rotation): the per-note
tick result depends on the hand snapshot only through the two position
fields, so ticks differing only in velocities produce identical outcomes;
and a (possibly stationary) hand inside the collision window (planar
distance below 0.6, depth distance below 1.2, squared planar comparison)
registers a hit on an unhit note. -/
theorem claim_C9_velocityFree :
    (∀ (C : EngineConstants) (n : NoteData) (t : ℚ) (mode : GameMode)
        (h₁ h₂ : HandPositions), h₁.left = h₂.left → h₁.right = h₂.right →
        updateNote C ⟨t, mode, h₁⟩ n = updateNote C ⟨t, mode, h₂⟩ n) ∧
    (∀ (C : EngineConstants) (env : TickInput) (n : NoteData) (p : Vec3),
      n.missed = false → n.hit = false →
      handPosFor env.hands n.type = some p →
      ¬(currentZOf C env.time n > C.MISS_Z) →
      env.gameMode = .STANDARD →
      currentZOf C env.time n > C.PLAYER_Z - 5/2 →
      currentZOf C env.time n < C.PLAYER_Z + 3/2 →
      |p.x - C.LANE_X_POSITIONS n.lineIndex| ^ 2 +
        |p.y - C.LAYER_Y_POSITIONS n.lineLayer| ^ 2 < (3/5 : ℚ) ^ 2 →
      |p.z - currentZOf C env.time n| < 6/5 →
      (updateNote C env n).note.hit = true ∧
      (updateNote C env n).events =
        [GameEvent.noteHit { n with hit := true, hitTime := some env.time } true]) := by
  constructor
  · intro C n t mode h₁ h₂ hl hr
    have hfun : handPosFor h₁ = handPosFor h₂ :=
      funext fun ht => by cases ht <;> simp [handPosFor, hl, hr]
    simp only [updateNote, holdTailStep, headStep, hfun]
  · intro C env n p hm hh hsel hmiss hmode hz1 hz2 hpl hdz
    have hupd : updateNote C env n = resolveHit env.time n := by
      rw [updateNote, if_neg (by simp [hm]), if_neg (by simp [hh])]
      rw [headStep, if_neg hmiss]
      rw [if_neg (by simp [hmode]), if_neg (by simp [hmode])]
      rw [if_pos ⟨hh, hz1, hz2⟩]
      rw [hsel]
      exact if_pos ⟨hpl, hdz⟩
    rw [hupd]
    unfold resolveHit
    split_ifs <;> simp



/-- C10: every branch of the tick that invokes the hit callback — real
collision or single-hand auto-play, each routed through `handleHit` — passes
`goodCut = true`, so no tick ever emits a hit event flagged as a bad cut. -/
theorem claim_C10_goodCutAlwaysTrue (C : EngineConstants) (env : TickInput)
    (n : NoteData) : ((updateNote C env n).events.all goodCutOk) = true :=
  updateNote_goodCut C env n

/-- Concrete engine constants for witnesses (spec-plausible values:
player plane at 0, miss threshold at 1, note speed 12, all lane/layer
anchors at the origin). -/
def testConsts : EngineConstants :=
  { PLAYER_Z := 0, MISS_Z := 1, SPAWN_Z := -20, NOTE_SPEED := 12
    LANE_X_POSITIONS := fun _ => 0, LAYER_Y_POSITIONS := fun _ => 0 }

/-- Both hands tracked at the origin, no rotation, zero velocity. -/
def originHands : HandPositions :=
  { left := some ⟨0, 0, 0⟩, right := some ⟨0, 0, 0⟩
    leftRotation := none, rightRotation := none
    leftVelocity := ⟨0, 0, 0⟩, rightVelocity := ⟨0, 0, 0⟩ }

/-- Both hands tracked at the origin but moving fast: same positions as
`originHands`, different velocities. -/
def velHands : HandPositions :=
  { originHands with leftVelocity := ⟨5, 5, 5⟩, rightVelocity := ⟨5, 5, 5⟩ }

/-- No hand tracked at all. -/
def noHands : HandPositions :=
  { left := none, right := none
    leftRotation := none, rightRotation := none
    leftVelocity := ⟨0, 0, 0⟩, rightVelocity := ⟨0, 0, 0⟩ }

/-- A tick at time 0 in standard mode with hands at the origin. -/
def tick0 : TickInput := { time := 0, gameMode := .STANDARD, hands := originHands }

/-- A tick at time 1 with no hands: `testNote` is far past the miss line. -/
def tickMiss : TickInput := { time := 1, gameMode := .STANDARD, hands := noHands }

/-- A plain right-hand zero-length note due at time 0. -/
def testNote : NoteData :=
  { id := "n-0", time := 0, length := 0, lineIndex := 0, lineLayer := 0
    type := .right, cutDirection := .ANY
    audio := { instrument := .lead, midi := 64, name := "E4", duration := 1/10, velocity := 4/5 }
    hit := false, isHolding := false, missed := false, hitTime := none }

/-- `testNote` already marked missed. -/
def missedNote : NoteData := { testNote with missed := true }

/-- `testNote` already hit, as a hold note of length 1. -/
def holdNote : NoteData := { testNote with hit := true, length := 1 }

/-- Witness for `claim_C5_monotonic`: an already-missed note is inert under
a concrete tick, and a note that misses on a concrete tick stays frozen
(no events, no state change) when the run continues. -/
theorem claim_C5_monotonic_witness :
    (noteRun testConsts [tick0] (missedNote, true) = ((missedNote, true), [])) ∧
    ((noteRun testConsts [tickMiss] (testNote, true)).1.1.missed = true ∧
      noteRun testConsts [tick0] (noteRun testConsts [tickMiss] (testNote, true)).1 =
        ((noteRun testConsts [tickMiss] (testNote, true)).1, [])) :=
  ⟨(claim_C5_monotonic testConsts [tick0] [] missedNote).1 (by with_unfolding_all decide),
   by with_unfolding_all decide,
   (claim_C5_monotonic testConsts [tickMiss] [tick0] testNote).2.2.2
     (by with_unfolding_all decide)⟩

/-- Witness for `claim_C6_holdLifecycle`: at time 2 the hold window of
`holdNote` (length 1) has elapsed and the note is removed with holding
cleared; at time 0 the note is kept and the origin hand makes it holding. -/
theorem claim_C6_holdLifecycle_witness :
    (updateNote testConsts { time := 2, gameMode := .STANDARD, hands := originHands }
        holdNote = ⟨{ holdNote with isHolding := false }, false, []⟩) ∧
    ((updateNote testConsts tick0 holdNote).keep = true ∧
      (updateNote testConsts tick0 holdNote).note.isHolding = true) :=
  ⟨(claim_C6_holdLifecycle testConsts
      { time := 2, gameMode := .STANDARD, hands := originHands } holdNote
      rfl rfl (by with_unfolding_all decide)).1 (by with_unfolding_all decide),
   ((claim_C6_holdLifecycle testConsts tick0 holdNote
      rfl rfl (by with_unfolding_all decide)).2 (by with_unfolding_all decide)).1,
   (((claim_C6_holdLifecycle testConsts tick0 holdNote
      rfl rfl (by with_unfolding_all decide)).2 (by with_unfolding_all decide)).2.1).mpr
     ⟨⟨0, 0, 0⟩, rfl, by with_unfolding_all decide⟩⟩

/-- Witness for `claim_C9_velocityFree`: ticks whose hand snapshots differ
only in velocity give identical results, and the stationary origin hand hits
`testNote` at time 0. -/
theorem claim_C9_velocityFree_witness :
    (updateNote testConsts { time := 0, gameMode := .STANDARD, hands := originHands }
        testNote =
      updateNote testConsts { time := 0, gameMode := .STANDARD, hands := velHands }
        testNote) ∧
    (updateNote testConsts tick0 testNote).note.hit = true :=
  ⟨claim_C9_velocityFree.1 testConsts testNote 0 .STANDARD originHands velHands rfl rfl,
   (claim_C9_velocityFree.2 testConsts tick0 testNote ⟨0, 0, 0⟩ rfl rfl rfl
      (by with_unfolding_all decide) rfl
      (by with_unfolding_all decide) (by with_unfolding_all decide)
      (by with_unfolding_all decide) (by with_unfolding_all decide)).1⟩



/-- Witness for `claim_C8_rhythmExclusion`: the first chart note of the
two-note input is a lead note (not kick, bass or hihat), and the kick/bass
background filter equality holds for that input. -/
theorem claim_C8_rhythmExclusion_witness :
    ((noteForEvent zeroSin 0 ⟨1, 60, "C4", 4/5, 1/10, .lead⟩) ∈
      (generateChartFromMidi zeroSin [c1Track] .Medium).chart ∧
     (noteForEvent zeroSin 0 ⟨1, 60, "C4", 4/5, 1/10, .lead⟩).audio.instrument ≠ .kick ∧
     (noteForEvent zeroSin 0 ⟨1, 60, "C4", 4/5, 1/10, .lead⟩).audio.instrument ≠ .bass ∧
     (noteForEvent zeroSin 0 ⟨1, 60, "C4", 4/5, 1/10, .lead⟩).audio.instrument ≠ .hihat) ∧
    (Multiset.filter (fun b => b.instrument = .kick ∨ b.instrument = .bass)
        (↑((generateChartFromMidi zeroSin [c1Track] .Medium).backgroundEvents) :
          Multiset BackgroundAudioEvent) =
      Multiset.filter (fun b => b.instrument = .kick ∨ b.instrument = .bass)
        (↑((flattenTracks [c1Track]).map eventProj) :
          Multiset BackgroundAudioEvent)) := by
  have hmem : (noteForEvent zeroSin 0 ⟨1, 60, "C4", 4/5, 1/10, .lead⟩) ∈
      (generateChartFromMidi zeroSin [c1Track] .Medium).chart := by
    with_unfolding_all decide
  have h := (claim_C8_rhythmExclusion zeroSin [c1Track] .Medium).1 _ hmem
  exact ⟨⟨hmem, h.1, h.2.1, h.2.2 (by with_unfolding_all decide)⟩,
    (claim_C8_rhythmExclusion zeroSin [c1Track] .Medium).2⟩


end AvgHero
